import Mathlib

/-!
Verification of the Email Loop Agent task lifecycle.

Shallow embedding of the agent's task queue (`task-queue.ts`), executor
(`sendEmail` in `index.ts`), and API client (`report`, `poll`,
`sendHealthCheck` in `api-client.ts`), with theorems settling the spec's
claims about queue accounting, retry behaviour, token invalidation and
the executor's error containment.
-/

namespace Agent

/-! ## Data model (`index.ts` interfaces `Task` / `TaskResult`) -/

/-- Contact record of a task (`Task.contact` in `index.ts`). -/
structure Contact where
  id : Nat
  email : String
  firstName : Option String := none
  lastName : Option String := none
  company : Option String := none
  website : Option String := none
deriving Repr, DecidableEq

/-- Campaign record of a task (`Task.campaign` in `index.ts`). -/
structure Campaign where
  name : String
  replyTo : Option String := none
deriving Repr, DecidableEq

/-- SMTP credential bundle of a task (`Task.smtp` in `index.ts`). -/
structure SmtpCreds where
  id : Nat
  email : String
  password : String
  host : Option String := none
  port : Option Nat := none
  secure : Option Bool := none
  authType : Option String := none
deriving Repr, DecidableEq

/-- A task polled from the master (`Task` interface in `index.ts`;
`types.ts` has the same shape for the queue's purposes). -/
structure Task where
  queueId : Nat
  campaignId : Nat
  subject : String
  body : String
  trackingId : String
  contact : Contact
  campaign : Campaign
  smtp : SmtpCreds
deriving Repr, DecidableEq

/-- Outcome of one executed task (`TaskResult` interface in `index.ts`). -/
structure TaskResult where
  queueId : Nat
  smtpId : Nat
  smtpEmail : String
  success : Bool
  trackingId : Option String := none
  subject : Option String := none
  body : Option String := none
  errorMessage : Option String := none
deriving Repr, DecidableEq

/-! ## Task queue (`task-queue.ts`)

The module's state is the array `currentQueue : Task[]`, modelled as a
`List Task`.  Each exported function becomes a pure function of that list;
a JS array index is a number that may be negative, so indices are `Int`. -/

/-- Source `getQueueSize()` — `return currentQueue.length`. -/
def getQueueSize (q : List Task) : Nat :=
  q.length

/-- Source `addTasks(tasks)` — `currentQueue.push(...tasks)` appends in order. -/
def addTasks (q : List Task) (tasks : List Task) : List Task :=
  q ++ tasks

/-- Source `removeTaskByIndex(index)` — when `index >= 0 && index < currentQueue.length`
it does `currentQueue.splice(index, 1)`, removing the element at that
position; otherwise it does nothing. -/
def removeTaskByIndex (q : List Task) (index : Int) : List Task :=
  if 0 ≤ index ∧ index < (q.length : Int) then q.eraseIdx index.toNat else q

/-- Source `shiftTask()` — `currentQueue.shift()`: removes and returns the first
task, or `undefined` on an empty queue.  Returns the popped task (if any)
together with the new queue state. -/
def shiftTask (q : List Task) : Option Task × List Task :=
  match q with
  | [] => (none, [])
  | t :: rest => (some t, rest)

/-- Source `clearQueue()` — `currentQueue = []`. -/
def clearQueue (_q : List Task) : List Task :=
  []

/-- Source `isQueueEmpty()` — `return currentQueue.length === 0`. -/
def isQueueEmpty (q : List Task) : Bool :=
  q.length == 0

/-! ## Operation sequences over the queue

For the queue-accounting claim we run arbitrary sequences of the three
mutating operations named by the claim and count, exactly as the source
does, how many tasks each one adds and how many it successfully removes. -/

/-- One mutating queue operation: `addTasks`, `shiftTask`, or
`removeTaskByIndex`. -/
inductive QueueOp where
  | add (tasks : List Task)
  | shift
  | removeAt (index : Int)
deriving Repr

/-- Effect of one operation on the queue state. -/
def applyOp (q : List Task) : QueueOp → List Task
  | .add tasks => addTasks q tasks
  | .shift => (shiftTask q).2
  | .removeAt i => removeTaskByIndex q i

/-- Number of tasks an operation adds (only `addTasks` adds). -/
def addedBy : QueueOp → Nat
  | .add tasks => tasks.length
  | .shift => 0
  | .removeAt _ => 0

/-- Number of tasks an operation successfully removes from queue state `q`:
`shiftTask` removes one iff the queue is non-empty, `removeTaskByIndex`
removes one iff the index is in range, `addTasks` removes none. -/
def removedBy (q : List Task) : QueueOp → Nat
  | .add _ => 0
  | .shift => if q = [] then 0 else 1
  | .removeAt i => if 0 ≤ i ∧ i < (q.length : Int) then 1 else 0

/-- Run a sequence of operations from queue state `q`. -/
def runOps (q : List Task) : List QueueOp → List Task
  | [] => q
  | op :: ops => runOps (applyOp q op) ops

/-- Total number of tasks added over a sequence. -/
def addedTotal : List QueueOp → Nat
  | [] => 0
  | op :: ops => addedBy op + addedTotal ops

/-- Total number of tasks successfully removed over a sequence run from `q`. -/
def removedTotal (q : List Task) : List QueueOp → Nat
  | [] => 0
  | op :: ops => removedBy q op + removedTotal (applyOp q op) ops

/-! ### Queue accounting lemmas -/

/-- One step of the accounting invariant: applying any single operation
changes the length by exactly (added − removed). -/
theorem applyOp_length (q : List Task) (op : QueueOp) :
    (applyOp q op).length + removedBy q op = q.length + addedBy op := by
  cases op with
  | add tasks =>
    simp [applyOp, addTasks, addedBy, removedBy]
  | shift =>
    cases q with
    | nil => simp [applyOp, shiftTask, addedBy, removedBy]
    | cons t rest => simp [applyOp, shiftTask, addedBy, removedBy]
  | removeAt i =>
    by_cases h : 0 ≤ i ∧ i < (q.length : Int)
    · have hlt : i.toNat < q.length := by
        omega
      simp only [applyOp, removeTaskByIndex, removedBy, addedBy, if_pos h]
      have := List.length_eraseIdx_add_one hlt
      omega
    · simp [applyOp, removeTaskByIndex, removedBy, addedBy, if_neg h]

/-- The accounting invariant over any operation sequence from any start. -/
theorem runOps_length (ops : List QueueOp) :
    ∀ q : List Task,
      (runOps q ops).length + removedTotal q ops = q.length + addedTotal ops := by
  induction ops with
  | nil => intro q; simp [runOps, removedTotal, addedTotal]
  | cons op ops ih =>
    intro q
    have hstep := applyOp_length q op
    have htail := ih (applyOp q op)
    simp only [runOps, removedTotal, addedTotal]
    omega

/-! ## API client (`api-client.ts`)

The client's only process-wide state is the agent token held by the
config store (`getAgentToken` / `setAgentToken`); `null` before
registration, and the code also writes `''` to invalidate it, so we model
it as `Option String` with both `none` and `some ""` counting as absent
(JS falsiness of `null`/`''`).  Network responses are an oracle value:
either `response.ok`, or a non-ok response with its status code, or a
thrown exception (fetch/json failure). -/

/-- A thrown JS value: an `Error` object carrying a message, or any other
value (the source maps the latter to the text `Unknown error`). -/
inductive JsThrown where
  | errorObj (message : String)
  | other
deriving Repr, DecidableEq

/-- Source `error instanceof Error ? error.message : 'Unknown error'`. -/
def jsErrorMessage : JsThrown → String
  | .errorObj m => m
  | .other => "Unknown error"

/-- Outcome of one `fetch` round-trip. -/
inductive HttpOutcome where
  | success
  | failure (status : Nat)
  | thrown (e : JsThrown)
deriving Repr, DecidableEq

/-- The falsiness test `!agentToken` on the stored token. -/
def tokenMissing : Option String → Bool
  | none => true
  | some s => s == ""

/-- Source `poll()` — returns the task list and the token state after the call.
With a missing token it returns `[]` without a network call; on a non-ok
response it returns `[]`, and additionally stores `''` (`setAgentToken('')`)
when the status is 401; a thrown error also yields `[]`.  On success the
server's `data.tasks || []` is the oracle's `tasks` (the config merge on
success touches neither the token nor the returned tasks). -/
def poll (token : Option String) (out : HttpOutcome) (tasks : List Task) :
    List Task × Option String :=
  if tokenMissing token then ([], token)
  else
    match out with
    | .success => (tasks, token)
    | .failure s => ([], if s == 401 then some "" else token)
    | .thrown _ => ([], token)

/-- Source `sendHealthCheck()` — returns the boolean result and the token state
after the call: `false` without a network call when the token is missing;
on a non-ok response `false`, storing `''` when the status is 401;
`false` on a thrown error; `true` on success. -/
def sendHealthCheck (token : Option String) (out : HttpOutcome) :
    Bool × Option String :=
  if tokenMissing token then (false, token)
  else
    match out with
    | .success => (true, token)
    | .failure s => (false, if s == 401 then some "" else token)
    | .thrown _ => (false, token)

/-- Source `const MAX_RETRIES = 5` in `report`. -/
def MAX_RETRIES : Nat := 5

/-- Source `const RETRY_DELAY = 30000` (milliseconds) in `report`. -/
def RETRY_DELAY : Nat := 30000

/-- Observable outcome of one `report` call: the returned boolean, how
many fetch attempts were made, every `sleep` performed (in ms, in order),
and the token state afterwards (`report` never calls `setAgentToken`). -/
structure ReportRun where
  result : Bool
  fetches : Nat
  sleeps : List Nat
  tokenAfter : Option String
deriving Repr, DecidableEq

/-- The `for (let attempt = 1; attempt <= MAX_RETRIES; attempt++)` body of
`report`: on a non-ok response or a thrown error it sleeps `RETRY_DELAY`
and continues while `attempt < MAX_RETRIES`, otherwise returns `false`;
on `response.ok` it returns `true`.  `env n` is the outcome of the n-th
attempt's fetch; the fuel argument counts the remaining loop iterations. -/
def reportLoop (env : Nat → HttpOutcome) : Nat → Nat → Bool × Nat × List Nat
  | _, 0 => (false, 0, [])
  | attempt, fuel + 1 =>
    match env attempt with
    | .success => (true, 1, [])
    | .failure _ =>
      if attempt < MAX_RETRIES then
        let r := reportLoop env (attempt + 1) fuel
        (r.1, r.2.1 + 1, RETRY_DELAY :: r.2.2)
      else (false, 1, [])
    | .thrown _ =>
      if attempt < MAX_RETRIES then
        let r := reportLoop env (attempt + 1) fuel
        (r.1, r.2.1 + 1, RETRY_DELAY :: r.2.2)
      else (false, 1, [])

/-- Source `report(results)` — `if (!agentToken || results.length === 0) return true`
without any fetch; otherwise run the retry loop.  No branch of `report`
writes the token. -/
def report (token : Option String) (results : List TaskResult)
    (env : Nat → HttpOutcome) : ReportRun :=
  if tokenMissing token || results.isEmpty then
    { result := true, fetches := 0, sleeps := [], tokenAfter := token }
  else
    let r := reportLoop env 1 MAX_RETRIES
    { result := r.1, fetches := r.2.1, sleeps := r.2.2, tokenAfter := token }

/-! ## Delivery executor (`sendEmail` in `index.ts`)

The body of `sendEmail` is one `try`/`catch`.  Everything that can throw
inside the `try` is either the explicit missing-content check or the SMTP
side effect (`createTransport`/`sendMail`), which we abstract as an oracle
`smtpFault : Option JsThrown` — `none` when the send succeeds, `some e`
when it throws `e`. -/

/-- The string-falsiness default `a || b`: `b` when `a` is absent or `''`. -/
def orDefaultStr (a : Option String) (b : String) : String :=
  match a with
  | none => b
  | some s => if s == "" then b else s

/-- The number-falsiness default `a || b`: `b` when `a` is absent or `0`. -/
def orDefaultNat (a : Option Nat) (b : Nat) : Nat :=
  match a with
  | none => b
  | some n => if n == 0 then b else n

/-- The transport configuration built by `sendEmail` before sending:
`host: smtp.host || 'smtp.gmail.com'`, `port: smtp.port || 587`,
`secure: smtp.secure === true`, `requireTLS: !isSecure`,
`tls.rejectUnauthorized: isSecure`. -/
structure TransportConfig where
  host : String
  port : Nat
  secure : Bool
  requireTLS : Bool
  authUser : String
  authPass : String
  rejectUnauthorized : Bool
deriving Repr, DecidableEq

/-- Source `transportConfig` as computed from the task's SMTP bundle. -/
def transportConfig (smtp : SmtpCreds) : TransportConfig :=
  let isSecure := smtp.secure == some true
  { host := orDefaultStr smtp.host "smtp.gmail.com"
    port := orDefaultNat smtp.port 587
    secure := isSecure
    requireTLS := !isSecure
    authUser := smtp.email
    authPass := smtp.password
    rejectUnauthorized := isSecure }

/-- The `try` block of `sendEmail`: throws (`Except.error`) on missing
pre-generated content (`!subject || !body`, i.e. an empty string) or when
the SMTP side effect throws; otherwise returns the success `TaskResult`
(with `trackingId`, `subject` and `body` echoed back). -/
def sendEmailTry (task : Task) (smtpFault : Option JsThrown) :
    Except JsThrown TaskResult :=
  if task.subject == "" || task.body == "" then
    .error (.errorObj "Missing pre-generated email content")
  else
    match smtpFault with
    | some e => .error e
    | none =>
      .ok { queueId := task.queueId
            smtpId := task.smtp.id
            smtpEmail := task.smtp.email
            success := true
            trackingId := some task.trackingId
            subject := some task.subject
            body := some task.body }

/-- Source `sendEmail(task)` — the `catch` converts any thrown value into a
failed `TaskResult` whose `errorMessage` is the thrown error's message
(or `Unknown error` for a non-`Error` value). -/
def sendEmail (task : Task) (smtpFault : Option JsThrown) : TaskResult :=
  match sendEmailTry task smtpFault with
  | .ok r => r
  | .error e =>
    { queueId := task.queueId
      smtpId := task.smtp.id
      smtpEmail := task.smtp.email
      success := false
      errorMessage := some (jsErrorMessage e) }

/-! ## Scheduler drain loop (modelled from the spec) -/

/-- Modelled from the spec: the Scheduler's `Draining` loop of §4.4 is part
of the refactored scheduler that is absent from the source files (only its
hooks `getQueueSize`/`stopPolling` appear, in the update checker).  Per the
spec it processes exactly one task per iteration — FIFO pop via
`shiftTask` — reports that single result, and transitions to `Terminated`
once the queue is empty and no task is mid-flight.  The value returned is
the list of report calls made (each a one-element batch, in order)
together with the final queue state. -/
def drainLoop (exec : Task → TaskResult) :
    List Task → List (List TaskResult) × List Task
  | [] => ([], [])
  | t :: rest =>
    let popped := shiftTask (t :: rest)
    let r := drainLoop exec rest
    (((popped.1.map exec).toList) :: r.1, r.2)

/-! ## Demonstration values for witnesses and counterexamples -/

/-- A concrete contact for witness runs. -/
def demoContact : Contact :=
  { id := 11, email := "alice@example.com" }

/-- A concrete campaign for witness runs. -/
def demoCampaign : Campaign :=
  { name := "launch" }

/-- A concrete SMTP bundle for witness runs. -/
def demoSmtp : SmtpCreds :=
  { id := 3, email := "sender@example.com", password := "pw" }

/-- A concrete task with `queueId = 1`. -/
def demoTask1 : Task :=
  { queueId := 1, campaignId := 9, subject := "hello", body := "world",
    trackingId := "trk-1", contact := demoContact, campaign := demoCampaign,
    smtp := demoSmtp }

/-- A concrete task with `queueId = 2`. -/
def demoTask2 : Task :=
  { queueId := 2, campaignId := 9, subject := "hi", body := "there",
    trackingId := "trk-2", contact := demoContact, campaign := demoCampaign,
    smtp := demoSmtp }

/-- Variant of `demoTask1` whose subject is empty (missing content). -/
def demoTaskNoSubject : Task :=
  { demoTask1 with subject := "" }

/-- A concrete task result for report runs. -/
def demoResult : TaskResult :=
  { queueId := 7, smtpId := 3, smtpEmail := "sender@example.com",
    success := true }

/-- An environment in which every fetch gets HTTP 500. -/
def demoEnvFail : Nat → HttpOutcome :=
  fun _ => .failure 500

/-- An environment in which every fetch gets HTTP 401. -/
def demoEnv401 : Nat → HttpOutcome :=
  fun _ => .failure 401

/-! ## Helper lemmas shared by the claims -/

/-- Identity removal through a recomputed index: the `removeTaskByIndex`
call on the index found for `queueId = qid` at call time. -/
def removeByQueueId (q : List Task) (qid : Nat) : List Task :=
  removeTaskByIndex q ((q.findIdx (fun t => t.queueId == qid) : Nat) : Int)

/-- Erasing a list at the first index satisfying `p` lowers the `p`-count
by exactly one, provided some element satisfies `p`. -/
theorem countP_eraseIdx_findIdx (p : Task → Bool) :
    ∀ q : List Task, (∃ t ∈ q, p t) →
      (q.eraseIdx (q.findIdx p)).countP p + 1 = q.countP p := by
  intro q
  induction q with
  | nil => intro h; simp at h
  | cons t rest ih =>
    intro h
    by_cases hp : p t
    · simp [List.findIdx_cons, hp, List.eraseIdx, List.countP_cons, hp]
    · have hrest : ∃ x ∈ rest, p x := by
        rcases h with ⟨x, hx, hpx⟩
        rcases List.mem_cons.mp hx with hx1 | hx2
        · exact absurd (hx1 ▸ hpx) hp
        · exact ⟨x, hx2, hpx⟩
      have := ih hrest
      simp [List.findIdx_cons, hp, List.eraseIdx, List.countP_cons]
      omega

/-- When every attempt's fetch is non-ok or throws, the retry loop started
at `attempt` with `fuel` iterations left (where `attempt + fuel` spans
exactly the `MAX_RETRIES` budget) performs all remaining attempts with a
`RETRY_DELAY` sleep between consecutive ones and returns `false`. -/
theorem reportLoop_allFail (env : Nat → HttpOutcome)
    (hfail : ∀ n, env n ≠ HttpOutcome.success) :
    ∀ fuel attempt, attempt + fuel = MAX_RETRIES + 1 →
      reportLoop env attempt fuel
        = (false, fuel, List.replicate (fuel - 1) RETRY_DELAY) := by
  intro fuel
  induction fuel with
  | zero =>
    intro attempt _
    simp [reportLoop]
  | succ k ih =>
    intro attempt h
    have hbranch :
        (if attempt < MAX_RETRIES then
            let r := reportLoop env (attempt + 1) k
            (r.1, r.2.1 + 1, RETRY_DELAY :: r.2.2)
          else ((false : Bool), 1, ([] : List Nat)))
          = (false, k + 1, List.replicate k RETRY_DELAY) := by
      by_cases hlt : attempt < MAX_RETRIES
      · have hk : 1 ≤ k := by simp [MAX_RETRIES] at h hlt; omega
        have hrec := ih (attempt + 1) (by omega)
        rw [if_pos hlt, hrec]
        obtain ⟨k, rfl⟩ := Nat.exists_eq_add_of_le hk
        simp [Nat.add_comm, List.replicate_succ]
      · have hk : k = 0 := by simp [MAX_RETRIES] at h hlt; omega
        rw [if_neg hlt]
        simp [hk]
    rcases hout : env attempt with _ | s | e
    · exact absurd hout (hfail attempt)
    · simpa [reportLoop, hout] using hbranch
    · simpa [reportLoop, hout] using hbranch

/-! ## Claims -/

/-- C1: for every sequence of queue operations (`addTasks`, `shiftTask`,
`removeTaskByIndex`) starting from the empty queue, `getQueueSize()`
equals the number of tasks added minus the number successfully removed;
removals never exceed additions (so the size is never negative and no
removal is double-counted). -/
theorem queue_size_accounting (ops : List QueueOp) :
    getQueueSize (runOps [] ops) = addedTotal ops - removedTotal [] ops
    ∧ removedTotal [] ops ≤ addedTotal ops := by
  have h := runOps_length ops []
  simp only [List.length_nil, Nat.zero_add] at h
  unfold getQueueSize
  omega

/-- C10: for every queue state and every out-of-range index (negative or
at least the queue length), `removeTaskByIndex` leaves the queue unchanged
(and so `getQueueSize()` is identical before and after); being a total
function, it raises no error. -/
theorem removeTaskByIndex_out_of_range (q : List Task) (i : Int)
    (h : i < 0 ∨ (q.length : Int) ≤ i) :
    removeTaskByIndex q i = q
    ∧ getQueueSize (removeTaskByIndex q i) = getQueueSize q := by
  have hno : ¬(0 ≤ i ∧ i < (q.length : Int)) := by omega
  simp [removeTaskByIndex, hno]

/-- Witness for C10 at the concrete queue `[demoTask1]` and index `-1`. -/
theorem removeTaskByIndex_out_of_range_witness :
    ((-1 : Int) < 0 ∨ (([demoTask1].length : Nat) : Int) ≤ -1)
    ∧ removeTaskByIndex [demoTask1] (-1) = [demoTask1] :=
  ⟨Or.inl (by decide),
    (removeTaskByIndex_out_of_range [demoTask1] (-1) (Or.inl (by decide))).1⟩

/-- C7 counterexample: queue removal is positional, not by queueId
identity.  The same call `removeTaskByIndex(0)` removes tasks of different
identity depending on layout, and after the queue `[demoTask1, demoTask2]`
is mutated by `shiftTask`, removing at `demoTask1`'s old index `0` deletes
`demoTask2` — a task with a different `queueId` — instead. -/
theorem removal_not_by_identity_cex :
    demoTask1.queueId ≠ demoTask2.queueId
    ∧ removeTaskByIndex [demoTask1, demoTask2] 0 = [demoTask2]
    ∧ removeTaskByIndex [demoTask2, demoTask1] 0 = [demoTask1]
    ∧ removeTaskByIndex (shiftTask [demoTask1, demoTask2]).2 0 = [] := by
  refine ⟨by decide, ?_, ?_, ?_⟩ <;> rfl

/-- C7 (amended): the queue removes by position — `removeTaskByIndex(i)`
erases whatever task currently sits at index `i`, regardless of its
`queueId` — so removal of a specific task by identity is achieved only by
recomputing the index from the `queueId` at removal time, after any
mutation; with a freshly recomputed index (`removeByQueueId`), exactly one
task bearing the requested `queueId` is removed. -/
theorem removal_positional_and_identity_via_recomputed_index
    (q : List Task) (i : Nat) (qid : Nat)
    (hi : i < q.length) (hqid : ∃ t ∈ q, t.queueId = qid) :
    removeTaskByIndex q (i : Int) = q.eraseIdx i
    ∧ (removeByQueueId q qid).countP (fun t => t.queueId == qid) + 1
        = q.countP (fun t => t.queueId == qid) := by
  constructor
  · have hin : (0 : Int) ≤ (i : Int) ∧ (i : Int) < (q.length : Int) := by
      constructor
      · exact Int.ofNat_nonneg i
      · exact_mod_cast hi
    simp [removeTaskByIndex, hin]
  · have hex : ∃ t ∈ q, (fun t : Task => t.queueId == qid) t := by
      rcases hqid with ⟨t, ht, hteq⟩
      exact ⟨t, ht, by simp [hteq]⟩
    have hfind := List.findIdx_lt_length_of_exists hex
    have hin : (0 : Int) ≤ ((q.findIdx (fun t => t.queueId == qid) : Nat) : Int)
        ∧ ((q.findIdx (fun t => t.queueId == qid) : Nat) : Int) < (q.length : Int) := by
      constructor
      · exact Int.ofNat_nonneg _
      · exact_mod_cast hfind
    have hrw : removeByQueueId q qid = q.eraseIdx (q.findIdx (fun t => t.queueId == qid)) := by
      simp [removeByQueueId, removeTaskByIndex, hin]
    rw [hrw]
    exact countP_eraseIdx_findIdx (fun t => t.queueId == qid) q hex

/-- Witness for the amended C7 at the queue `[demoTask1, demoTask2]`,
index `1`, identity `queueId = 1`. -/
theorem removal_positional_witness :
    (1 < [demoTask1, demoTask2].length
      ∧ ∃ t ∈ [demoTask1, demoTask2], t.queueId = 1)
    ∧ removeTaskByIndex [demoTask1, demoTask2] (1 : Nat) =
        [demoTask1, demoTask2].eraseIdx 1
    ∧ (removeByQueueId [demoTask1, demoTask2] 1).countP
          (fun t => t.queueId == 1) + 1
        = [demoTask1, demoTask2].countP (fun t => t.queueId == 1) := by
  refine ⟨⟨by decide, ⟨demoTask1, by simp, by decide⟩⟩, ?_⟩
  exact removal_positional_and_identity_via_recomputed_index
    [demoTask1, demoTask2] 1 1 (by decide) ⟨demoTask1, by simp, by decide⟩

/-- C2: for every non-empty batch reported with a token present, if every
attempt's fetch fails (non-ok response or thrown exception), `report`
makes exactly `MAX_RETRIES = 5` attempts with a fixed `RETRY_DELAY =
30000` ms sleep between consecutive attempts — four identical delays, no
exponential backoff — and returns failure after the fifth attempt, the
token untouched. -/
theorem report_retry_bound (token : Option String) (results : List TaskResult)
    (env : Nat → HttpOutcome)
    (htok : tokenMissing token = false) (hres : results ≠ [])
    (hfail : ∀ n, env n ≠ HttpOutcome.success) :
    report token results env =
      { result := false, fetches := MAX_RETRIES,
        sleeps := List.replicate (MAX_RETRIES - 1) RETRY_DELAY,
        tokenAfter := token } := by
  have hloop := reportLoop_allFail env hfail MAX_RETRIES 1 (by simp [MAX_RETRIES])
  have hne : results.isEmpty = false := by
    cases results with
    | nil => exact absurd rfl hres
    | cons a l => rfl
  simp [report, htok, hne, hloop]

/-- Witness for C2: a singleton batch, token present, every fetch gets
HTTP 500; the run is 5 fetches, 4 sleeps of 30 seconds, result `false`. -/
theorem report_retry_bound_witness :
    tokenMissing (some "tok") = false
    ∧ [demoResult] ≠ ([] : List TaskResult)
    ∧ (∀ n, demoEnvFail n ≠ HttpOutcome.success)
    ∧ report (some "tok") [demoResult] demoEnvFail =
        { result := false, fetches := 5,
          sleeps := [30000, 30000, 30000, 30000], tokenAfter := some "tok" } := by
  have hfail : ∀ n, demoEnvFail n ≠ HttpOutcome.success := by
    intro n h
    simp [demoEnvFail] at h
  refine ⟨by decide, by simp, hfail, ?_⟩
  have h := report_retry_bound (some "tok") [demoResult] demoEnvFail
    (by decide) (by simp) hfail
  simpa [MAX_RETRIES, RETRY_DELAY, List.replicate] using h

/-- C3 counterexample: `report` is an authenticated call, yet a 401
response does not invalidate the stored agent token — with a valid token
and every attempt answered 401, `report` returns failure and the token is
still the same non-empty string, so the claim fails for `report`. -/
theorem report_401_keeps_token_cex :
    tokenMissing (some "tok") = false
    ∧ (report (some "tok") [demoResult] demoEnv401).result = false
    ∧ (report (some "tok") [demoResult] demoEnv401).tokenAfter = some "tok" := by
  refine ⟨by decide, ?_, ?_⟩ <;> rfl

/-- C3 (amended): for `poll` and `sendHealthCheck` a 401 response
invalidates the stored agent token (it is set to the empty string, so the
next cycle forces re-registration), but `report` never changes the token,
on any response. -/
theorem token_invalidated_on_401_amended (token : Option String)
    (tasks : List Task) (results : List TaskResult) (env : Nat → HttpOutcome)
    (htok : tokenMissing token = false) :
    (poll token (.failure 401) tasks).2 = some ""
    ∧ (sendHealthCheck token (.failure 401)).2 = some ""
    ∧ (report token results env).tokenAfter = token := by
  refine ⟨?_, ?_, ?_⟩
  · simp [poll, htok]
  · simp [sendHealthCheck, htok]
  · by_cases h : results.isEmpty <;> simp [report, htok, h]

/-- Witness for the amended C3 at a concrete valid token. -/
theorem token_invalidated_on_401_amended_witness :
    tokenMissing (some "abc") = false
    ∧ (poll (some "abc") (.failure 401) []).2 = some ""
    ∧ (sendHealthCheck (some "abc") (.failure 401)).2 = some ""
    ∧ (report (some "abc") [demoResult] demoEnv401).tokenAfter = some "abc" :=
  ⟨by decide,
    token_invalidated_on_401_amended (some "abc") [] [demoResult] demoEnv401
      (by decide)⟩

/-- C5: every fault inside `sendEmail`'s try block (missing subject/body
content, or any thrown transport/authentication/connection error) is
caught and converted into a `TaskResult` with `success = false` carrying
the thrown error's message (`Unknown error` for non-`Error` values); the
function is total, so no exception passes its boundary. -/
theorem sendEmail_converts_faults (task : Task) (fault : Option JsThrown)
    (e : JsThrown) (h : sendEmailTry task fault = Except.error e) :
    sendEmail task fault =
      { queueId := task.queueId, smtpId := task.smtp.id,
        smtpEmail := task.smtp.email, success := false,
        errorMessage := some (jsErrorMessage e) } := by
  simp [sendEmail, h]

/-- Witness for C5: the missing-content fault on `demoTaskNoSubject`. -/
theorem sendEmail_converts_faults_witness :
    sendEmailTry demoTaskNoSubject none
      = Except.error (JsThrown.errorObj "Missing pre-generated email content")
    ∧ sendEmail demoTaskNoSubject none =
      { queueId := demoTaskNoSubject.queueId, smtpId := demoTaskNoSubject.smtp.id,
        smtpEmail := demoTaskNoSubject.smtp.email, success := false,
        errorMessage := some "Missing pre-generated email content" } :=
  ⟨rfl,
    sendEmail_converts_faults demoTaskNoSubject none
      (JsThrown.errorObj "Missing pre-generated email content") rfl⟩

/-- C6: the `TaskResult` produced by `sendEmail` carries the input task's
`queueId`, on the success path and on every failure path. -/
theorem sendEmail_preserves_queueId (task : Task) (fault : Option JsThrown) :
    (sendEmail task fault).queueId = task.queueId := by
  cases fault with
  | none =>
    by_cases h : (task.subject == "" || task.body == "") = true <;>
      simp [sendEmail, sendEmailTry, h]
  | some e =>
    by_cases h : (task.subject == "" || task.body == "") = true <;>
      simp [sendEmail, sendEmailTry, h]

/-- C8: reporting an empty result list returns success with zero fetches
and zero sleeps — no network activity — whatever the token state. -/
theorem report_empty_no_network (token : Option String)
    (env : Nat → HttpOutcome) :
    report token [] env =
      { result := true, fetches := 0, sleeps := [], tokenAfter := token } := by
  by_cases h : tokenMissing token <;> simp [report, h]

/-- C9: with the agent token absent (unset or empty), `report` on any
non-empty batch returns success immediately with zero fetches and zero
sleeps — the results are silently dropped, not reported or flagged. -/
theorem report_without_token_drops_results (token : Option String)
    (results : List TaskResult) (env : Nat → HttpOutcome)
    (htok : tokenMissing token = true) (hres : results ≠ []) :
    report token results env =
      { result := true, fetches := 0, sleeps := [], tokenAfter := token } := by
  simp [report, htok]

/-- Witness for C9: no token, a singleton batch, an always-failing
environment — yet `report` answers success with no fetch. -/
theorem report_without_token_drops_results_witness :
    tokenMissing none = true
    ∧ [demoResult] ≠ ([] : List TaskResult)
    ∧ report none [demoResult] demoEnvFail =
        { result := true, fetches := 0, sleeps := [], tokenAfter := none } :=
  ⟨rfl, by simp,
    report_without_token_drops_results none [demoResult] demoEnvFail rfl
      (by simp)⟩

/-- C4: for any executor that preserves `queueId` (the correlation
invariant of the executor), draining a queue of N tasks with no task
in-flight produces exactly N report calls — one single-result batch per
task — leaves the final queue size at 0 before termination, and reports
each task exactly once (the reported `queueId`s are exactly the queued
ones, in order). -/
theorem drain_sends_one_report_per_task (exec : Task → TaskResult)
    (q : List Task) (hexec : ∀ t : Task, (exec t).queueId = t.queueId) :
    (drainLoop exec q).1.length = getQueueSize q
    ∧ getQueueSize (drainLoop exec q).2 = 0
    ∧ ((drainLoop exec q).1.map (fun batch => batch.map TaskResult.queueId))
        = q.map (fun t => [t.queueId]) := by
  induction q with
  | nil => simp [drainLoop, getQueueSize]
  | cons t rest ih =>
    obtain ⟨ih1, ih2, ih3⟩ := ih
    refine ⟨?_, ?_, ?_⟩
    · simpa [drainLoop, shiftTask, getQueueSize] using ih1
    · simpa [drainLoop, shiftTask, getQueueSize] using ih2
    · simp [drainLoop, shiftTask, hexec t]
      exact ih3

/-- Witness for C4: draining two concrete tasks with a concrete
`queueId`-preserving executor yields two singleton reports, an empty
queue, and the two queued identities in order. -/
theorem drain_sends_one_report_per_task_witness :
    (∀ t : Task, ((fun t : Task =>
        ({ queueId := t.queueId, smtpId := t.smtp.id,
           smtpEmail := t.smtp.email, success := true } : TaskResult)) t).queueId
        = t.queueId)
    ∧ (drainLoop (fun t : Task =>
        ({ queueId := t.queueId, smtpId := t.smtp.id,
           smtpEmail := t.smtp.email, success := true } : TaskResult))
        [demoTask1, demoTask2]).1.length = getQueueSize [demoTask1, demoTask2]
    ∧ getQueueSize (drainLoop (fun t : Task =>
        ({ queueId := t.queueId, smtpId := t.smtp.id,
           smtpEmail := t.smtp.email, success := true } : TaskResult))
        [demoTask1, demoTask2]).2 = 0
    ∧ ((drainLoop (fun t : Task =>
        ({ queueId := t.queueId, smtpId := t.smtp.id,
           smtpEmail := t.smtp.email, success := true } : TaskResult))
        [demoTask1, demoTask2]).1.map (fun batch => batch.map TaskResult.queueId))
        = [demoTask1, demoTask2].map (fun t => [t.queueId]) :=
  ⟨fun _ => rfl,
    drain_sends_one_report_per_task _ [demoTask1, demoTask2] (fun _ => rfl)⟩

end Agent
